import Mathlib

/-!
# Content Fitting & Allocation Engine — verification development

Shallow embedding of the core of the ppt_automation repository
(`src/text_processor.py`, `src/content_allocator.py`,
`src/template_analyzer.py`, `src/error_handler.py`) and proofs about it.

Modelling conventions:
* Python `str` text payloads are modelled as `List Char` (`Str`); `len` is
  `List.length` (both count code points).  Identifier-like fields compared
  only for equality (slide types, layout names) stay `String`.
* Python `int` character budgets are modelled as `Int` (they can be
  negative, e.g. a capacity estimated from degenerate geometry).
* Exceptions are modelled with `Except`: a function that can raise returns
  `Except PPTError α`; the per-slide `try/except ... continue` of
  `ContentAllocator.allocate` is the `run_alloc` catch returning `[]`.
* The sentence tokenizer is the repository's own fallback
  `TextProcessor._simple_sentence_split` (`re.split(r'[.!?]+', text)` with
  strip and empty-filter); the NLTK tokenizer is an optional external
  dependency outside this repository.
* The TF-IDF vectorizer (sklearn, external) is a parameter
  `vectorizer : List Str → Except Unit (List ℚ)` giving one score per
  sentence, `none` when sklearn is unavailable; scores are modelled as ℚ.
  `Python`'s stable `sorted` is modelled by the stable insertion sort
  `sortKey` (stable sorts agree extensionally, so insertion sort is a
  faithful model of Timsort).
-/

/-- Python `str` payload: a list of characters (code points). -/
abbrev Str := List Char

/-- The characters `.`/`!`/`?` used by the regex `[.!?]+` and the
`endswith`/`rfind` checks of `truncate_smart`. -/
def isPunct (c : Char) : Bool := c = '.' || c = '!' || c = '?'

/-- Split a list at every element satisfying `p`, keeping (possibly empty)
segments between separators — the behaviour of `re.split` on a
single-character class once empty segments are stripped/filtered. -/
def splitP (p : Char → Bool) : Str → List Str
  | [] => [[]]
  | c :: l =>
    if p c then [] :: splitP p l
    else
      match splitP p l with
      | [] => [[c]]
      | a :: as => (c :: a) :: as

/-- Python `str.strip()`: drop leading and trailing whitespace. -/
def trimChars (l : Str) : Str :=
  ((l.dropWhile Char.isWhitespace).reverse.dropWhile Char.isWhitespace).reverse

/-- `TextProcessor._simple_sentence_split`:
`re.split(r'[.!?]+', text)`, strip each piece, drop empties. -/
def simple_sentence_split (text : Str) : List Str :=
  ((splitP isPunct text).map trimChars).filter (· ≠ [])

/-- Walk for `collapseWs`; the flag records whether the previous character
was whitespace (in which case further whitespace is absorbed into the
already-emitted space). -/
def collapseWsGo : Bool → Str → Str
  | _, [] => []
  | prevWs, c :: rest =>
    if c.isWhitespace then
      if prevWs then collapseWsGo true rest
      else ' ' :: collapseWsGo true rest
    else c :: collapseWsGo false rest

/-- `re.sub(r'\s+', ' ', text)`: collapse every whitespace run to one space. -/
def collapseWs (l : Str) : Str := collapseWsGo false l

/-- `text[0].upper() + text[1:]` guarded by `text[0].islower()`. -/
def capitalizeFirst : Str → Str
  | [] => []
  | c :: rest => if c.isLower then c.toUpper :: rest else c :: rest

/-- `text[-1] in '.!?'` (False on the empty string, as in Python where the
check is guarded by `if text`). -/
def endsPunct (l : Str) : Bool :=
  match l.getLast? with
  | some c => isPunct c
  | none => false

/-- `TextProcessor._clean_bullet`: strip, collapse whitespace runs,
capitalize a lowercase first letter, append `.` unless already ending in
`.`/`!`/`?`. -/
def clean_bullet (text : Str) : Str :=
  let t := collapseWs (trimChars text)
  let t := capitalizeFirst t
  if t ≠ [] ∧ ¬ endsPunct t then t ++ ['.'] else t

/-- Python slicing `text[:n]` for an `int` bound `n` (negative `n` slices
from the end). -/
def pySliceTo (l : Str) (n : Int) : Str :=
  if 0 ≤ n then l.take n.toNat else l.take ((l.length : Int) + n).toNat

/-- The greedy sentence-accumulation loop of `truncate_smart`:
append `sent + " "` while `len(result) + len(sent) + 1 <= max_length`,
stop at the first sentence that does not fit. -/
def truncAccum (maxLength : Int) : List Str → Str → Str
  | [], result => result
  | sent :: rest, result =>
    if (result.length : Int) + sent.length + 1 ≤ maxLength then
      truncAccum maxLength rest (result ++ sent ++ [' '])
    else result

/-- `max(result.rfind('.'), result.rfind('!'), result.rfind('?'))`:
the last index holding one of `.`/`!`/`?`, or `-1` if none. -/
def lastPunctIdx (l : Str) : Int :=
  match l.reverse.findIdx? isPunct with
  | some j => (l.length : Int) - 1 - j
  | none => -1

/-- `TextProcessor.truncate_smart(text, max_length)` with the repository's
fallback sentence splitter. -/
def truncate_smart (text : Str) (maxLength : Int) : Str :=
  if (text.length : Int) ≤ maxLength then text
  else
    let sentences := simple_sentence_split text
    let result := truncAccum maxLength sentences []
    let result := trimChars result
    let result :=
      if result ≠ [] ∧ result.length < text.length then
        (if ¬ endsPunct result then
          (let le := lastPunctIdx result
           if 0 < le then result.take (le.toNat + 1) else result)
         else result) ++ ['.', '.', '.']
      else result
    if result ≠ [] then result else pySliceTo text maxLength ++ ['.', '.', '.']

/-- The per-item cap used by both `_fit_content_to_placeholder` and
`split_long_content`:
`if len(item) > bound: item = truncate_smart(item, bound)`. -/
def cap_item (bound : Int) (item : Str) : Str :=
  if (item.length : Int) > bound then truncate_smart item bound else item

/-- Loop of `TextProcessor.split_long_content`: accumulate items (each first
capped at `max_chars_per_item`), emitting a chunk whenever `max_items` items
have accumulated, and emitting the non-empty remainder at the end. -/
def split_long_go (max_items : Nat) (max_chars_per_item : Int) :
    List Str → List Str → List (List Str)
  | [], current => if current ≠ [] then [current] else []
  | item :: rest, current =>
    let item := cap_item max_chars_per_item item
    let current := current ++ [item]
    if current.length ≥ max_items then
      current :: split_long_go max_items max_chars_per_item rest []
    else split_long_go max_items max_chars_per_item rest current

/-- `TextProcessor.split_long_content(content, max_items, max_chars_per_item)`. -/
def split_long_content (content : List Str) (max_items : Nat)
    (max_chars_per_item : Int) : List (List Str) :=
  if content.length ≤ max_items then [content]
  else split_long_go max_items max_chars_per_item content []

/-- Python `list.index(x)`: position of the first occurrence. -/
def pyIndex (a : Str) : List Str → Nat
  | [] => 0
  | b :: l => if b = a then 0 else pyIndex a l + 1

/-- Stable insertion step: `a` moves past exactly the elements whose key is
strictly smaller than its own, so earlier elements with equal keys stay in
front of it. -/
def insertKey {α κ : Type} [LinearOrder κ] (key : α → κ) (a : α) :
    List α → List α
  | [] => [a]
  | b :: l => if key b < key a then b :: insertKey key a l else a :: b :: l

/-- Stable sort by `key`, ascending — the extensional behaviour of Python's
stable `sorted(..., key=key)`. -/
def sortKey {α κ : Type} [LinearOrder κ] (key : α → κ) (l : List α) : List α :=
  l.foldr (insertKey key) []

/-- `sorted(scored_sentences, key=lambda x: x[1], reverse=True)`:
stable sort by score, descending (negating the key reverses comparisons
without disturbing stability, exactly like `reverse=True`). -/
def sortDescByScore (l : List (Str × ℚ)) : List (Str × ℚ) :=
  sortKey (fun p => -p.2) l

/-- `top_sentences.sort(key=lambda x: originals.index(x))`. -/
def sort_by_index (originals : List Str) (l : List Str) : List Str :=
  sortKey (fun s => pyIndex s originals) l

/-- `TextProcessor._get_top_sentences(scored_sentences, n)`.  (The
`sentence_to_score` dict built by the source is never used and is omitted.) -/
def get_top_sentences (scored : List (Str × ℚ)) (n : Nat) : List Str :=
  let sorted := sortDescByScore scored
  let top_n := sorted.take n
  let top_sentences := top_n.map Prod.fst
  sort_by_index (scored.map Prod.fst) top_sentences

/-- `TextProcessor._score_sentences_tfidf`: scores from the (external)
vectorizer; its bare `except:` falls back to an equal score of `1.0` per
sentence. `zip` truncates to the shorter list as in Python. -/
def score_sentences_tfidf (vectorizer : List Str → Except Unit (List ℚ))
    (sentences : List Str) : List (Str × ℚ) :=
  match vectorizer sentences with
  | .ok scores => sentences.zip scores
  | .error _ => sentences.zip (List.replicate sentences.length (1 : ℚ))

/-- `TextProcessor.summarize_to_bullets(text, max_bullets,
min_sentence_length)`.  The guard `if not text or not text.strip()` holds
exactly when every character is whitespace.  `vectorizer = none` models
`SKLEARN_AVAILABLE == False` (the first-N fallback); when scoring is
available its own failures are absorbed inside `score_sentences_tfidf`,
so the outer `try/except` of the source never fires. -/
def summarize_to_bullets (vectorizer : Option (List Str → Except Unit (List ℚ)))
    (text : Str) (max_bullets : Nat) (min_sentence_length : Nat) : List Str :=
  if text.all Char.isWhitespace then []
  else
    let sentences := simple_sentence_split text
    let sentences := sentences.filter fun s => min_sentence_length ≤ s.length
    if sentences.length ≤ max_bullets then sentences.map clean_bullet
    else
      match vectorizer with
      | some v =>
        (get_top_sentences (score_sentences_tfidf v sentences) max_bullets).map
          clean_bullet
      | none => (sentences.take max_bullets).map clean_bullet

/-- `int(q)` for a Python float/number: truncation toward zero. -/
def pyInt (q : ℚ) : Int := if 0 ≤ q then ⌊q⌋ else -⌊-q⌋

/-- `TemplateAnalyzer._estimate_capacity`: `int(width * 12) * int(height * 8)`
(geometry in inches modelled exactly as rationals). -/
def estimate_capacity (width height : ℚ) : Int :=
  pyInt (width * 12) * pyInt (height * 8)

/-- The exception classes of `error_handler.py` (`TemplateError`,
`ContentError`, `AllocationError`); there is no `TemplateResolutionError`
class in the repository. -/
inductive PPTError where
  | templateError (msg : String)
  | contentError (msg : String)
  | allocationError (msg : String)
deriving DecidableEq

/-- The dynamically-typed `content` field: a free string or a bullet list. -/
inductive ContentField where
  | str (s : Str)
  | items (l : List Str)
deriving DecidableEq

/-- One slide request (`slide_data` dict), with the `.get` defaults already
applied by the caller. -/
structure SlideData where
  slide_type : String
  title : Str
  content : ContentField
  notes : Str
deriving DecidableEq

/-- `PlaceholderInfo` as consumed by the allocator. -/
structure Placeholder where
  placeholder_idx : Nat
  placeholder_type : Str
  max_chars : Int
deriving DecidableEq

/-- One template slide of the analyzed template structure. -/
structure TemplateSlide where
  slide_idx : Nat
  layout_name : String
  slide_type : String
  placeholders : List Placeholder
  has_body : Bool
deriving DecidableEq

/-- A value of the placeholder mapping: `{'text': ..., 'type': 'title',
'format': 'plain'}` or `{'text': ..., 'type': 'body', 'format': 'bullets'}`
(the constructor determines the constant `type`/`format` fields). -/
inductive Fitted where
  | title (text : Str)
  | body (items : List Str)
deriving DecidableEq

/-- One allocation dict produced by `_allocate_single_slide`. -/
structure Allocation where
  slide_number : Nat
  template_slide_idx : Nat
  layout_name : String
  slide_type : String
  content : List (Nat × Fitted)
  notes : Str
deriving DecidableEq

/-- The recognized configuration options with their defaults
(`max_bullets_per_slide = 6`, `max_bullet_length = 200`). -/
structure AllocConfig where
  max_bullets : Nat
  max_bullet_length : Int
deriving DecidableEq

/-- The default configuration (`config = {}`). -/
def defaultConfig : AllocConfig := ⟨6, 200⟩

/-- Python `'needle' in haystack` substring test. -/
def containsSub (needle hay : Str) : Bool :=
  (List.range (hay.length + 1)).any fun i => needle.isPrefixOf (hay.drop i)

/-- Inner loop of `ContentAllocator._find_best_template`:
first template whose `slide_type` matches any of the alternatives, tried in
order. -/
def findAlt (tmpl : List TemplateSlide) : List String → Option TemplateSlide
  | [] => none
  | alt :: rest =>
    match tmpl.find? (fun t => t.slide_type = alt) with
    | some t => some t
    | none => findAlt tmpl rest

/-- `ContentAllocator._find_best_template`: exact match, then the fixed
fallback table. -/
def find_best_template (tmpl : List TemplateSlide) (slide_type : String) :
    Option TemplateSlide :=
  match tmpl.find? (fun t => t.slide_type = slide_type) with
  | some t => some t
  | none =>
    let alternatives :=
      if slide_type = "title" then ["title", "section_header"]
      else if slide_type = "content" then ["content", "two_column"]
      else if slide_type = "section_header" then ["section_header", "title"]
      else []
    findAlt tmpl alternatives

/-- `ContentAllocator._get_default_template`: first `content` slide, else
first slide with a body, else the first slide; raises
`AllocationError("No valid template found")` on an empty structure. -/
def get_default_template (tmpl : List TemplateSlide) :
    Except PPTError TemplateSlide :=
  match tmpl.find? (fun t => t.slide_type = "content") with
  | some t => .ok t
  | none =>
    match tmpl.find? (fun t => t.has_body) with
    | some t => .ok t
    | none =>
      match tmpl with
      | t :: _ => .ok t
      | [] => .error (.allocationError "No valid template found")

/-- Template resolution as performed at the top of
`_allocate_single_slide`: `_find_best_template`, falling back to
`_get_default_template`. -/
def resolve_template (tmpl : List TemplateSlide) (slide_type : String) :
    Except PPTError TemplateSlide :=
  match find_best_template tmpl slide_type with
  | some t => .ok t
  | none => get_default_template tmpl

/-- Loop of `ContentAllocator._fit_content_to_placeholder`: greedily pack
items (each first capped at `max_bullet_length`); the first overflowing item
is truncated into the remaining budget if more than 50 characters remain,
then packing stops; packing also stops once `max_bullets` items are packed. -/
def fitGo (cfg : AllocConfig) (maxChars : Int) :
    List Str → List Str → Int → List Str
  | [], fitted, _ => fitted
  | item :: rest, fitted, current =>
    let item := cap_item cfg.max_bullet_length item
    let itemLength : Int := item.length
    if current + itemLength ≤ maxChars then
      let fitted := fitted ++ [item]
      if fitted.length ≥ cfg.max_bullets then fitted
      else fitGo cfg maxChars rest fitted (current + itemLength)
    else
      let remaining := maxChars - current
      if remaining > 50 then fitted ++ [truncate_smart item remaining]
      else fitted

/-- `ContentAllocator._fit_content_to_placeholder(items, max_chars)`. -/
def fit_content_to_placeholder (cfg : AllocConfig) (items : List Str)
    (max_chars : Int) : List Str :=
  fitGo cfg max_chars items [] 0

/-- `ContentAllocator._map_content_to_placeholders`: build the
`placeholder_idx → content` mapping (a dict in the source, modelled as an
association list in placeholder order; placeholder indices are unique in a
template slide). -/
def map_content_to_placeholders (cfg : AllocConfig) (sd : SlideData)
    (template : TemplateSlide) : List (Nat × Fitted) :=
  template.placeholders.filterMap fun ph =>
    if containsSub "TITLE".toList ph.placeholder_type ||
        containsSub "CENTERED_TITLE".toList ph.placeholder_type then
      let title := sd.title
      let title :=
        if (title.length : Int) > ph.max_chars then
          truncate_smart title ph.max_chars
        else title
      some (ph.placeholder_idx, .title title)
    else if containsSub "BODY".toList ph.placeholder_type ||
        containsSub "OBJECT".toList ph.placeholder_type then
      let content_items :=
        match sd.content with
        | .str s => [s]
        | .items l => l
      some (ph.placeholder_idx,
        .body (fit_content_to_placeholder cfg content_items ph.max_chars))
    else none

/-- `ContentAllocator._allocate_single_slide(slide_data, idx)`. -/
def allocate_single (cfg : AllocConfig) (tmpl : List TemplateSlide)
    (sd : SlideData) (idx : Nat) : Except PPTError Allocation :=
  (resolve_template tmpl sd.slide_type).map fun template_slide =>
    { slide_number := idx + 1
      template_slide_idx := template_slide.slide_idx
      layout_name := template_slide.layout_name
      slide_type := sd.slide_type
      content := map_content_to_placeholders cfg sd template_slide
      notes := sd.notes }

/-- `ContentAllocator._needs_split(slide_data)`: never for string content;
split when `len(content) > max_bullets * 1.5` or the total character count
exceeds 2000. -/
def needs_split (cfg : AllocConfig) (sd : SlideData) : Bool :=
  match sd.content with
  | .str _ => false
  | .items content =>
    -- `len(content) > self.max_bullets * 1.5`: the float product is exact
    -- here, and the rational comparison `n > k * (3/2)` is written cleared
    -- of its denominator as `2 * n > 3 * k`.
    if 2 * content.length > 3 * cfg.max_bullets then true
    else if 2000 < (content.map List.length).sum then true
    else false

/-- `enumerate(...)` starting at `i`. -/
def pyEnum0 {α : Type} : Nat → List α → List (Nat × α)
  | _, [] => []
  | i, a :: l => (i, a) :: pyEnum0 (i + 1) l

/-- `enumerate(...)`. -/
def pyEnum {α : Type} (l : List α) : List (Nat × α) := pyEnum0 0 l

/-- The chunked slide requests built inside `_split_slide_content`:
string content is wrapped in a list, chunked by `split_long_content`
(with `max_items = max_bullets` and the default `max_chars_per_item = 200`),
and chunks after the first get `" (cont.)"` appended to the original title. -/
def split_slide_requests (cfg : AllocConfig) (sd : SlideData) :
    List SlideData :=
  let content :=
    match sd.content with
    | .str s => [s]
    | .items l => l
  let content_chunks := split_long_content content cfg.max_bullets 200
  (pyEnum content_chunks).map fun chunk =>
    { sd with
      content := .items chunk.2
      title := if chunk.1 > 0 then sd.title ++ " (cont.)".toList else sd.title }

/-- The sequential `_allocate_single_slide` calls of `_split_slide_content`;
a raise aborts the remaining chunks (propagating to the per-slide handler). -/
def mapAllocs (cfg : AllocConfig) (tmpl : List TemplateSlide) (idx : Nat) :
    List SlideData → Except PPTError (List Allocation)
  | [] => .ok []
  | csd :: rest =>
    (allocate_single cfg tmpl csd idx).bind fun a =>
      (mapAllocs cfg tmpl idx rest).map fun as => a :: as

/-- `ContentAllocator._split_slide_content(slide_data, idx)`. -/
def split_slide_content (cfg : AllocConfig) (tmpl : List TemplateSlide)
    (sd : SlideData) (idx : Nat) : Except PPTError (List Allocation) :=
  mapAllocs cfg tmpl idx (split_slide_requests cfg sd)

/-- The per-slide `except Exception: continue` of `allocate`: a failing
request contributes no entries. -/
def run_alloc (r : Except PPTError (List Allocation)) : List Allocation :=
  match r with
  | .ok as => as
  | .error _ => []

/-- The body of `allocate`'s loop for one request: `_allocate_single_slide`
first, then either the split allocations or the single allocation, with any
raise caught and the request skipped. -/
def allocate_entries (cfg : AllocConfig) (tmpl : List TemplateSlide)
    (idx : Nat) (sd : SlideData) : List Allocation :=
  run_alloc ((allocate_single cfg tmpl sd idx).bind fun allocation =>
    if needs_split cfg sd then split_slide_content cfg tmpl sd idx
    else .ok [allocation])

/-- `ContentAllocator.allocate()`: fails with `AllocationError` on an empty
request list, otherwise concatenates each request's entries in input order. -/
def allocate (cfg : AllocConfig) (tmpl : List TemplateSlide)
    (slides_data : List SlideData) : Except PPTError (List Allocation) :=
  if slides_data = [] then .error (.allocationError "No slides found in content")
  else .ok ((pyEnum slides_data).map fun p =>
    allocate_entries cfg tmpl p.1 p.2).flatten

/-- Sum of the item lengths of a fitted list, as a Python `int`. -/
def sumLen (l : List Str) : Int := ((l.map List.length).sum : Nat)

/-- The slide numbers of an allocation run (empty on a fatal error). -/
def planNumbers (r : Except PPTError (List Allocation)) : List Nat :=
  match r with
  | .ok p => p.map (·.slide_number)
  | .error _ => []

/-! ## Concrete inputs used by counterexamples and witnesses -/

/-- A template structure with a single bare `content` slide. -/
def tmplC2 : List TemplateSlide := [⟨0, "L", "content", [], true⟩]

/-- A request with ten one-character bullets (triggers the overflow split). -/
def sA : SlideData := ⟨"content", ['T'], .items (List.replicate 10 ['a']), []⟩

/-- A request with a single short bullet. -/
def sB : SlideData := ⟨"content", ['U'], .items [['x']], []⟩

/-- A title placeholder with capacity 50 (the placeholder type string is the
`str(ph.type)` form produced by python-pptx). -/
def titlePh50 : Placeholder := ⟨0, "PP_PLACEHOLDER_TYPE.TITLE (13)".toList, 50⟩

/-- A template slide holding only `titlePh50`. -/
def titleTemplate50 : TemplateSlide := ⟨0, "Title Layout", "title", [titlePh50], false⟩

/-- A request whose title is 300 characters long. -/
def sd300 : SlideData := ⟨"title", List.replicate 300 'y', .items [], []⟩

/-- A text whose first and third sentences coincide. -/
def c6text : Str := "Aaaa. Bbbb. Aaaa. Cccc.".toList

/-- A vectorizer scoring the four sentences of `c6text` 5, 3, 5, 1
(equal sentences receive equal scores, as TF-IDF does). -/
def vC6 : List Str → Except Unit (List ℚ) := fun _ => .ok [5, 3, 5, 1]

/-- A vectorizer that always fails (a raising sklearn backend). -/
def vFail : List Str → Except Unit (List ℚ) := fun _ => .error ()

/-! ## Lemmas about the stable insertion sort -/

theorem insertKey_perm {α κ : Type} [LinearOrder κ] (key : α → κ) (a : α) :
    ∀ l : List α, (insertKey key a l).Perm (a :: l)
  | [] => List.Perm.refl _
  | b :: l => by
    unfold insertKey
    by_cases h : key b < key a
    · simp only [if_pos h]
      exact ((insertKey_perm key a l).cons b).trans (List.Perm.swap a b l)
    · simp only [if_neg h]
      exact List.Perm.refl _

theorem sortKey_perm {α κ : Type} [LinearOrder κ] (key : α → κ) :
    ∀ l : List α, (sortKey key l).Perm l
  | [] => List.Perm.refl _
  | a :: l => by
    show (insertKey key a (sortKey key l)).Perm (a :: l)
    exact (insertKey_perm key a _).trans ((sortKey_perm key l).cons a)

theorem insertKey_pairwise_le {α κ : Type} [LinearOrder κ] (key : α → κ)
    (a : α) : ∀ l : List α, l.Pairwise (fun x y => key x ≤ key y) →
    (insertKey key a l).Pairwise (fun x y => key x ≤ key y)
  | [], _ => List.pairwise_singleton _ _
  | b :: l, h => by
    obtain ⟨hb, hl⟩ := List.pairwise_cons.mp h
    unfold insertKey
    by_cases hc : key b < key a
    · simp only [if_pos hc]
      refine List.pairwise_cons.mpr ⟨?_, insertKey_pairwise_le key a l hl⟩
      intro y hy
      rcases List.mem_cons.mp (((insertKey_perm key a l).mem_iff).mp hy) with hy | hy
      · exact hy ▸ hc.le
      · exact hb y hy
    · simp only [if_neg hc]
      refine List.pairwise_cons.mpr ⟨?_, h⟩
      intro y hy
      rcases List.mem_cons.mp hy with hy | hy
      · exact hy ▸ le_of_not_lt hc
      · exact (le_of_not_lt hc).trans (hb y hy)

theorem sortKey_pairwise_le {α κ : Type} [LinearOrder κ] (key : α → κ) :
    ∀ l : List α, (sortKey key l).Pairwise (fun x y => key x ≤ key y)
  | [] => List.Pairwise.nil
  | a :: l => insertKey_pairwise_le key a _ (sortKey_pairwise_le key l)

theorem sortKey_eq_of_pairwise_le {α κ : Type} [LinearOrder κ] (key : α → κ) :
    ∀ l : List α, l.Pairwise (fun x y => key x ≤ key y) → sortKey key l = l
  | [], _ => rfl
  | a :: l, h => by
    obtain ⟨ha, hl⟩ := List.pairwise_cons.mp h
    show insertKey key a (sortKey key l) = a :: l
    rw [sortKey_eq_of_pairwise_le key l hl]
    cases l with
    | nil => rfl
    | cons b l' =>
      unfold insertKey
      rw [if_neg (not_lt.mpr (ha b (List.mem_cons_self b l')))]

theorem pairwise_le_of_const {α κ : Type} [LinearOrder κ] (key : α → κ)
    (c : κ) : ∀ l : List α, (∀ x ∈ l, key x = c) →
    l.Pairwise (fun x y => key x ≤ key y)
  | [], _ => List.Pairwise.nil
  | a :: l, h => by
    refine List.pairwise_cons.mpr ⟨?_, pairwise_le_of_const key c l ?_⟩
    · intro y hy
      rw [h a (List.mem_cons_self a l), h y (List.mem_cons.mpr (Or.inr hy))]
    · intro x hx
      exact h x (List.mem_cons.mpr (Or.inr hx))

/-! ## Lemmas about `pyIndex` -/

theorem pyIndex_cons_self (a : Str) (l : List Str) : pyIndex a (a :: l) = 0 := by
  simp [pyIndex]

theorem pyIndex_cons_ne (a b : Str) (l : List Str) (h : b ≠ a) :
    pyIndex a (b :: l) = pyIndex a l + 1 := by
  simp [pyIndex, h]

theorem pyIndex_inj : ∀ (l : List Str) (a b : Str), a ∈ l → b ∈ l →
    pyIndex a l = pyIndex b l → a = b
  | [], a, b, ha, _, _ => absurd ha (List.not_mem_nil a)
  | c :: l, a, b, ha, hb, h => by
    by_cases hca : c = a <;> by_cases hcb : c = b
    · exact hca ▸ hcb
    · rw [← hca] at h
      rw [pyIndex_cons_self, pyIndex_cons_ne b c l hcb] at h
      exact absurd h.symm (Nat.succ_ne_zero _)
    · rw [← hcb] at h
      rw [pyIndex_cons_self, pyIndex_cons_ne a c l hca] at h
      exact absurd h (Nat.succ_ne_zero _)
    · rw [pyIndex_cons_ne a c l hca, pyIndex_cons_ne b c l hcb] at h
      have ha' : a ∈ l := (List.mem_cons.mp ha).resolve_left fun h' => hca h'.symm
      have hb' : b ∈ l := (List.mem_cons.mp hb).resolve_left fun h' => hcb h'.symm
      exact pyIndex_inj l a b ha' hb' (Nat.succ_injective h)

theorem pyIndex_get : ∀ (l : List Str), l.Nodup → ∀ (i : Fin l.length),
    pyIndex (l.get i) l = i
  | [], _, i => absurd i.isLt (by simp)
  | c :: l, hnd, i => by
    obtain ⟨hc, hl⟩ := List.pairwise_cons.mp hnd
    match i with
    | ⟨0, _⟩ => exact pyIndex_cons_self c l
    | ⟨j + 1, hj⟩ =>
      have hj' : j < l.length := Nat.lt_of_succ_lt_succ hj
      have hmem : l.get ⟨j, hj'⟩ ∈ l := List.get_mem l j hj'
      have hne : c ≠ l.get ⟨j, hj'⟩ := hc _ hmem
      show pyIndex (l.get ⟨j, hj'⟩) (c :: l) = j + 1
      rw [pyIndex_cons_ne _ c l hne, pyIndex_get l hl ⟨j, hj'⟩]

/-- On a duplicate-free list, earlier elements have strictly smaller
first-occurrence indices. -/
theorem pyIndex_pairwise_lt (l : List Str) (h : l.Nodup) :
    l.Pairwise (fun a b => pyIndex a l < pyIndex b l) := by
  rw [List.pairwise_iff_get]
  intro i j hij
  rw [pyIndex_get l h i, pyIndex_get l h j]
  exact hij

/-- A list whose elements come from `os` in strictly increasing
first-occurrence order is a sublist of `os`. -/
theorem sublist_of_pyIndex_lt : ∀ (os l : List Str), (∀ x ∈ l, x ∈ os) →
    l.Pairwise (fun a b => pyIndex a os < pyIndex b os) → l.Sublist os
  | _, [], _, _ => List.nil_sublist _
  | [], x :: _, hmem, _ => absurd (hmem x (List.mem_cons_self x _)) (List.not_mem_nil x)
  | o :: os', x :: xs, hmem, hpw => by
    obtain ⟨hx, hxs⟩ := List.pairwise_cons.mp hpw
    by_cases hxo : x = o
    · subst hxo
      refine List.Sublist.cons₂ x ?_
      have hne : ∀ y ∈ xs, y ≠ x := by
        intro y hy hyx
        have := hx y hy
        rw [hyx] at this
        exact lt_irrefl _ this
      refine sublist_of_pyIndex_lt os' xs ?_ ?_
      · intro y hy
        have hyx := hne y hy
        have : y ∈ x :: os' := hmem y (List.mem_cons.mpr (Or.inr hy))
        exact (List.mem_cons.mp this).resolve_left hyx
      · refine List.Pairwise.imp_of_mem ?_ hxs
        intro a b ha hb hab
        have hax : a ≠ x := hne a ha
        have hbx : b ≠ x := hne b hb
        rw [pyIndex_cons_ne a x os' (fun h => hax h.symm),
          pyIndex_cons_ne b x os' (fun h => hbx h.symm)] at hab
        exact Nat.lt_of_succ_lt_succ hab
    · refine List.Sublist.cons o ?_
      have hno : ∀ y ∈ x :: xs, y ≠ o := by
        intro y hy hyo
        rcases List.mem_cons.mp hy with hy | hy
        · exact hxo (hy ▸ hyo)
        · have h1 := hx y hy
          rw [pyIndex_cons_ne x o os' (fun h => hxo h.symm), hyo,
            pyIndex_cons_self] at h1
          exact absurd h1 (by omega)
      refine sublist_of_pyIndex_lt os' (x :: xs) ?_ ?_
      · intro y hy
        have hyo := hno y hy
        exact (List.mem_cons.mp (hmem y hy)).resolve_left hyo
      · refine List.Pairwise.imp_of_mem ?_ hpw
        intro a b ha hb hab
        have hao := hno a ha
        have hbo := hno b hb
        rw [pyIndex_cons_ne a o os' (fun h => hao h.symm),
          pyIndex_cons_ne b o os' (fun h => hbo h.symm)] at hab
        exact Nat.lt_of_succ_lt_succ hab

/-! ## Lemmas about the greedy content fitter -/

theorem sumLen_append_singleton (l : List Str) (x : Str) :
    sumLen (l ++ [x]) = sumLen l + x.length := by
  simp only [sumLen, List.map_append, List.map_cons, List.map_nil,
    List.sum_append, List.sum_cons, List.sum_nil]
  push_cast
  omega

/-- The fitter never returns more than `max cfg.max_bullets (fitted.length + 1)`
items when started from `fitted`. -/
theorem fitGo_length_le (cfg : AllocConfig) (maxChars : Int) :
    ∀ (items fitted : List Str) (current : Int),
    (fitGo cfg maxChars items fitted current).length ≤
      max cfg.max_bullets (fitted.length + 1) := by
  intro items
  induction items with
  | nil =>
    intro fitted current
    exact le_max_of_le_right (Nat.le_succ _)
  | cons item rest ih =>
    intro fitted current
    simp only [fitGo]
    split
    · split
      next hcap =>
        simp only [List.length_append, List.length_singleton]
        omega
      next hcap =>
        refine (ih _ _).trans ?_
        simp only [List.length_append, List.length_singleton, ge_iff_le,
          not_le] at hcap ⊢
        omega
    · split
      · simp only [List.length_append, List.length_singleton]
        omega
      · omega

/-- Loop invariant for the capacity bound: if the running total equals the
length-sum of the accumulated items and fits the budget, then the final
result either fits the budget, or ends in exactly one item truncated into
the remaining budget while everything before it fits. -/
theorem fitGo_sum_spec (cfg : AllocConfig) (maxChars : Int) :
    ∀ (items fitted : List Str) (current : Int),
    current = sumLen fitted → current ≤ maxChars →
    sumLen (fitGo cfg maxChars items fitted current) ≤ maxChars ∨
    ∃ pre item, fitGo cfg maxChars items fitted current =
        pre ++ [truncate_smart item (maxChars - sumLen pre)] ∧
      sumLen pre ≤ maxChars ∧ 50 < maxChars - sumLen pre := by
  intro items
  induction items with
  | nil =>
    intro fitted current hsum hle
    exact Or.inl (hsum ▸ hle)
  | cons item rest ih =>
    intro fitted current hsum hle
    simp only [fitGo]
    split
    next hfit =>
      have hsum' : current + ((cap_item cfg.max_bullet_length item).length : Int) =
          sumLen (fitted ++ [cap_item cfg.max_bullet_length item]) := by
        rw [sumLen_append_singleton, hsum]
      split
      · exact Or.inl (hsum' ▸ hfit)
      · exact ih _ _ hsum' (hsum' ▸ hfit)
    next hfit =>
      split
      next hrem =>
        refine Or.inr ⟨fitted, cap_item cfg.max_bullet_length item, ?_, ?_, ?_⟩
        · rw [← hsum]
        · exact hsum ▸ hle
        · exact hsum ▸ hrem
      next hrem =>
        exact Or.inl (hsum ▸ hle)

/-! ## Length bounds for `truncate_smart` -/

theorem truncAccum_length_le (maxLength : Int) :
    ∀ (sents : List Str) (res : Str), (res.length : Int) ≤ maxLength →
    ((truncAccum maxLength sents res).length : Int) ≤ maxLength
  | [], res, h => h
  | sent :: rest, res, h => by
    unfold truncAccum
    by_cases hc : (res.length : Int) + sent.length + 1 ≤ maxLength
    · simp only [if_pos hc]
      refine truncAccum_length_le maxLength rest _ ?_
      simp only [List.length_append, List.length_singleton]
      push_cast
      omega
    · simp only [if_neg hc]
      exact h

theorem trimChars_length_le (l : Str) : (trimChars l).length ≤ l.length := by
  unfold trimChars
  rw [List.length_reverse]
  calc ((l.dropWhile Char.isWhitespace).reverse.dropWhile Char.isWhitespace).length
      ≤ (l.dropWhile Char.isWhitespace).reverse.length :=
        (List.dropWhile_sublist _).length_le
    _ = (l.dropWhile Char.isWhitespace).length := List.length_reverse _
    _ ≤ l.length := (List.dropWhile_sublist _).length_le

/-- When truncation actually happens (`maxLength < len text`, `0 ≤ maxLength`),
the result is at most `maxLength + 3` characters and ends with the
three-character ellipsis marker `...`. -/
theorem truncate_smart_bound (text : Str) (maxLength : Int)
    (h0 : 0 ≤ maxLength) (hlt : maxLength < (text.length : Int)) :
    ((truncate_smart text maxLength).length : Int) ≤ maxLength + 3 ∧
    List.IsSuffix ['.', '.', '.'] (truncate_smart text maxLength) := by
  have hacc : ((truncAccum maxLength (simple_sentence_split text) []).length : Int) ≤
      maxLength := truncAccum_length_le maxLength _ [] (by simpa using h0)
  have htrim' := trimChars_length_le (truncAccum maxLength (simple_sentence_split text) [])
  simp only [truncate_smart, if_neg (not_le.mpr hlt)]
  set r2 := trimChars (truncAccum maxLength (simple_sentence_split text) []) with hr2
  have htrim : (r2.length : Int) ≤ maxLength := by omega
  have hshort : ∀ r3 : Str, r3.length ≤ r2.length →
      ((r3 ++ ['.', '.', '.']).length : Int) ≤ maxLength + 3 ∧
      List.IsSuffix ['.', '.', '.'] (r3 ++ ['.', '.', '.']) := by
    intro r3 h3
    constructor
    · simp only [List.length_append, List.length_cons, List.length_nil]
      push_cast
      omega
    · exact List.suffix_append _ _
  by_cases hne : r2 = []
  · rw [if_neg (by simp [hne])]
    constructor
    · simp only [List.length_append, List.length_cons, List.length_nil]
      have hsl : (pySliceTo text maxLength).length ≤ maxLength.toNat := by
        unfold pySliceTo
        rw [if_pos h0]
        simp
      push_cast
      omega
    · exact List.suffix_append _ _
  · have hcond : r2 ≠ [] ∧ r2.length < text.length := by
      refine ⟨hne, ?_⟩
      omega
    rw [if_pos hcond]
    by_cases hep : ¬ endsPunct r2
    · simp only [if_pos hep]
      by_cases hle : 0 < lastPunctIdx r2
      · simp only [if_pos hle]
        have hres := hshort (r2.take (((lastPunctIdx r2).toNat) + 1))
          (by simp)
        rw [if_pos (by simp)]
        exact hres
      · simp only [if_neg hle]
        have hres := hshort r2 (Nat.le_refl _)
        rw [if_pos (by simp)]
        exact hres
    · simp only [if_neg hep]
      have hres := hshort r2 (Nat.le_refl _)
      rw [if_pos (by simp)]
      exact hres

/-! ## Whitespace-only input -/

theorem splitP_chars_mem (p : Char → Bool) :
    ∀ (l : Str) (seg : Str), seg ∈ splitP p l → ∀ c ∈ seg, c ∈ l
  | [], seg, hseg, c, hc => by
    simp only [splitP, List.mem_singleton] at hseg
    subst hseg
    exact absurd hc (List.not_mem_nil c)
  | d :: l, seg, hseg, c, hc => by
    unfold splitP at hseg
    by_cases hp : p d
    · rw [if_pos hp] at hseg
      rcases List.mem_cons.mp hseg with h | h
      · subst h
        exact absurd hc (List.not_mem_nil c)
      · exact List.mem_cons.mpr (Or.inr (splitP_chars_mem p l seg h c hc))
    · rw [if_neg hp] at hseg
      rcases hsp : splitP p l with _ | ⟨a, as⟩
      · rw [hsp] at hseg
        simp only [List.mem_singleton] at hseg
        subst hseg
        simp only [List.mem_singleton] at hc
        exact hc ▸ List.mem_cons_self d l
      · rw [hsp] at hseg
        rcases List.mem_cons.mp hseg with h | h
        · subst h
          rcases List.mem_cons.mp hc with h' | h'
          · exact h' ▸ List.mem_cons_self d l
          · have : c ∈ l :=
              splitP_chars_mem p l a (hsp ▸ List.mem_cons_self a as) c h'
            exact List.mem_cons.mpr (Or.inr this)
        · have : c ∈ l :=
            splitP_chars_mem p l seg (hsp ▸ List.mem_cons.mpr (Or.inr h)) c hc
          exact List.mem_cons.mpr (Or.inr this)

theorem dropWhile_all_nil (p : Char → Bool) :
    ∀ l : Str, (∀ c ∈ l, p c) → l.dropWhile p = []
  | [], _ => rfl
  | c :: l, h => by
    rw [List.dropWhile_cons, if_pos (h c (List.mem_cons_self c l))]
    exact dropWhile_all_nil p l fun d hd => h d (List.mem_cons.mpr (Or.inr hd))

theorem trimChars_nil_of_ws (l : Str) (h : ∀ c ∈ l, c.isWhitespace) :
    trimChars l = [] := by
  unfold trimChars
  rw [dropWhile_all_nil _ l h]
  rfl

theorem simple_sentence_split_ws (text : Str)
    (h : ∀ c ∈ text, c.isWhitespace) : simple_sentence_split text = [] := by
  unfold simple_sentence_split
  rw [List.filter_eq_nil_iff]
  intro seg hseg
  rcases List.mem_map.mp hseg with ⟨seg', hseg', rfl⟩
  have : trimChars seg' = [] :=
    trimChars_nil_of_ws seg' fun c hc => h c (splitP_chars_mem isPunct text seg' hseg' c hc)
  simp [this]

/-! ## The degraded scoring path -/

/-- With equal scores (the fallback of `_score_sentences_tfidf`) and
duplicate-free sentences, `_get_top_sentences` returns the first `n`
sentences in their original order. -/
theorem get_top_sentences_uniform (sentences : List Str) (n : Nat)
    (hnd : sentences.Nodup) :
    get_top_sentences
      (sentences.zip (List.replicate sentences.length (1 : ℚ))) n =
      sentences.take n := by
  have hmapfst : (sentences.zip (List.replicate sentences.length (1 : ℚ))).map
      Prod.fst = sentences :=
    List.map_fst_zip _ _ (by rw [List.length_replicate])
  have hsorted : sortDescByScore
      (sentences.zip (List.replicate sentences.length (1 : ℚ))) =
      sentences.zip (List.replicate sentences.length (1 : ℚ)) := by
    refine sortKey_eq_of_pairwise_le _ _ ?_
    refine pairwise_le_of_const _ (-1 : ℚ) _ ?_
    intro x hx
    obtain ⟨s, q⟩ := x
    have := (List.of_mem_zip hx).2
    rw [List.eq_of_mem_replicate this]
  simp only [get_top_sentences]
  rw [hsorted, List.map_take, hmapfst]
  unfold sort_by_index
  refine sortKey_eq_of_pairwise_le _ _ ?_
  exact ((pyIndex_pairwise_lt sentences hnd).sublist
    (List.take_sublist n sentences)).imp le_of_lt

/-! ## Allocator lemmas -/

theorem findAlt_nil : ∀ alts : List String, findAlt [] alts = none
  | [] => rfl
  | _ :: rest => by
    unfold findAlt
    simp only [List.find?_nil]
    exact findAlt_nil rest

/-- Resolving any slide type against an empty template structure raises
`AllocationError("No valid template found")`. -/
theorem resolve_template_nil (slide_type : String) :
    resolve_template [] slide_type =
      .error (.allocationError "No valid template found") := by
  unfold resolve_template find_best_template get_default_template
  simp only [List.find?_nil, findAlt_nil]

theorem allocate_single_nil (cfg : AllocConfig) (sd : SlideData) (idx : Nat) :
    allocate_single cfg [] sd idx =
      .error (.allocationError "No valid template found") := by
  unfold allocate_single
  rw [resolve_template_nil]
  rfl

theorem allocate_entries_nil (cfg : AllocConfig) (idx : Nat) (sd : SlideData) :
    allocate_entries cfg [] idx sd = [] := by
  unfold allocate_entries
  rw [allocate_single_nil]
  rfl

theorem flatten_map_const_nil {α β : Type} :
    ∀ l : List α, (l.map fun _ => ([] : List β)).flatten = []
  | [] => rfl
  | _ :: rest => by
    simp only [List.map_cons, List.flatten_cons, List.nil_append]
    exact flatten_map_const_nil rest

theorem allocate_single_ok_number (cfg : AllocConfig)
    (tmpl : List TemplateSlide) (sd : SlideData) (idx : Nat) (a : Allocation)
    (h : allocate_single cfg tmpl sd idx = .ok a) : a.slide_number = idx + 1 := by
  unfold allocate_single at h
  cases hres : resolve_template tmpl sd.slide_type with
  | error e =>
    rw [hres] at h
    exact absurd h (by simp [Except.map])
  | ok t =>
    rw [hres] at h
    simp only [Except.map, Except.ok.injEq] at h
    rw [← h]

theorem mapAllocs_number (cfg : AllocConfig) (tmpl : List TemplateSlide)
    (idx : Nat) : ∀ (csds : List SlideData) (l : List Allocation),
    mapAllocs cfg tmpl idx csds = .ok l → ∀ e ∈ l, e.slide_number = idx + 1
  | [], l, h, e, he => by
    simp only [mapAllocs, Except.ok.injEq] at h
    subst h
    exact absurd he (List.not_mem_nil e)
  | csd :: rest, l, h, e, he => by
    unfold mapAllocs at h
    cases hsingle : allocate_single cfg tmpl csd idx with
    | error err =>
      rw [hsingle] at h
      exact absurd h (by simp [Except.bind])
    | ok a =>
      rw [hsingle] at h
      cases hrest : mapAllocs cfg tmpl idx rest with
      | error err =>
        rw [hrest] at h
        exact absurd h (by simp [Except.bind, Except.map])
      | ok as =>
        rw [hrest] at h
        simp only [Except.bind, Except.map, Except.ok.injEq] at h
        subst h
        rcases List.mem_cons.mp he with he | he
        · exact he ▸ allocate_single_ok_number cfg tmpl csd idx a hsingle
        · exact mapAllocs_number cfg tmpl idx rest as hrest e he

/-- Every entry produced for the request at input position `idx` carries
slide number `idx + 1` — the input position, not the output position. -/
theorem allocate_entries_number (cfg : AllocConfig) (tmpl : List TemplateSlide)
    (idx : Nat) (sd : SlideData) (e : Allocation)
    (he : e ∈ allocate_entries cfg tmpl idx sd) : e.slide_number = idx + 1 := by
  unfold allocate_entries at he
  cases hsingle : allocate_single cfg tmpl sd idx with
  | error err =>
    rw [hsingle] at he
    exact absurd he (by simp [Except.bind, run_alloc])
  | ok a =>
    rw [hsingle] at he
    simp only [Except.bind] at he
    by_cases hsplit : needs_split cfg sd
    · rw [if_pos hsplit] at he
      cases hsc : split_slide_content cfg tmpl sd idx with
      | error err =>
        rw [hsc] at he
        exact absurd he (by simp [Except.bind, run_alloc])
      | ok l =>
        rw [hsc] at he
        simp only [Except.bind, run_alloc] at he
        exact mapAllocs_number cfg tmpl idx _ l hsc e he
    · rw [if_neg hsplit] at he
      simp only [Except.bind, run_alloc, List.mem_singleton] at he
      exact he ▸ allocate_single_ok_number cfg tmpl sd idx a hsingle

/-! ## Claim theorems -/

/-- C1, counterexample.  With a template structure containing zero slides the
very first resolution attempt does raise (an `AllocationError` — the code
has no `TemplateResolutionError` class), but the failure is *not* fatal to
the run: the per-slide handler catches it, skips the request, and the batch
runs to completion, returning an empty plan instead of propagating the
error. -/
theorem allocate_empty_template_not_fatal :
    allocate_single defaultConfig [] sA 0 =
      .error (.allocationError "No valid template found") ∧
    allocate defaultConfig [] [sA, sB] = .ok [] :=
  ⟨rfl, rfl⟩

/-- C1, amended.  For every run against a template structure with zero
slides: each resolution attempt fails with
`AllocationError("No valid template found")`, each per-slide failure is
caught and skipped, and the batch completes with an empty plan (it is not
fatal to the run). -/
theorem allocate_empty_template_skips_all (cfg : AllocConfig)
    (slides : List SlideData) (sd : SlideData) (idx : Nat) (h : slides ≠ []) :
    allocate cfg [] slides = .ok [] ∧
    allocate_single cfg [] sd idx =
      .error (.allocationError "No valid template found") := by
  refine ⟨?_, allocate_single_nil cfg sd idx⟩
  unfold allocate
  rw [if_neg h]
  have hmap : (pyEnum slides).map (fun p => allocate_entries cfg [] p.1 p.2) =
      (pyEnum slides).map fun _ => ([] : List Allocation) :=
    List.map_congr_left fun p _ => allocate_entries_nil cfg p.1 p.2
  rw [hmap, flatten_map_const_nil]

/-- Witness for the amended C1 at a concrete non-empty batch. -/
theorem allocate_empty_template_skips_all_witness :
    [sA] ≠ [] ∧
    (allocate defaultConfig [] [sA] = .ok [] ∧
      allocate_single defaultConfig [] sB 0 =
        .error (.allocationError "No valid template found")) :=
  ⟨by decide, allocate_empty_template_skips_all defaultConfig [sA] sB 0 (by decide)⟩

/-- C2, counterexample.  One split request followed by an ordinary request
produces three output entries numbered `[1, 1, 2]`: the slide numbers are
not the 1-based output positions `[1, 2, 3]`. -/
theorem slide_numbers_not_output_positions :
    planNumbers (allocate defaultConfig tmplC2 [sA, sB]) = [1, 1, 2] ∧
    [1, 1, 2] ≠ [1, 2, 3] :=
  ⟨by decide, by decide⟩

/-- C2, amended.  The plan is the concatenation, in input order, of each
request's entry block (split entries contiguous, in chunk order), and every
entry produced for the request at input index `idx` carries slide number
`idx + 1` — the input position of its originating request, repeated across
split chunks and unadjusted for skipped requests, not the 1-based output
position. -/
theorem slide_numbers_follow_input_index (cfg : AllocConfig)
    (tmpl : List TemplateSlide) (slides : List SlideData) (h : slides ≠ []) :
    allocate cfg tmpl slides =
      .ok ((pyEnum slides).map fun p =>
        allocate_entries cfg tmpl p.1 p.2).flatten ∧
    ∀ (idx : Nat) (sd : SlideData) (e : Allocation),
      e ∈ allocate_entries cfg tmpl idx sd → e.slide_number = idx + 1 := by
  refine ⟨?_, fun idx sd e he => allocate_entries_number cfg tmpl idx sd e he⟩
  unfold allocate
  rw [if_neg h]

/-- Witness for the amended C2 at a concrete batch. -/
theorem slide_numbers_follow_input_index_witness :
    [sB] ≠ [] ∧
    (allocate defaultConfig tmplC2 [sB] =
        .ok ((pyEnum [sB]).map fun p =>
          allocate_entries defaultConfig tmplC2 p.1 p.2).flatten ∧
      ∀ (idx : Nat) (sd : SlideData) (e : Allocation),
        e ∈ allocate_entries defaultConfig tmplC2 idx sd →
          e.slide_number = idx + 1) :=
  ⟨by decide, slide_numbers_follow_input_index defaultConfig tmplC2 [sB] (by decide)⟩

/-- C3, counterexample.  With a bullet ceiling of `K = 0` the fitter still
returns one item, because the ceiling is only checked after an item has
been appended: `len(fit(items, capacity, 0)) ≤ 0` fails. -/
theorem fit_exceeds_zero_bullet_ceiling :
    (fit_content_to_placeholder ⟨0, 200⟩ [['a']] 100).length = 1 ∧
    ¬ ((fit_content_to_placeholder ⟨0, 200⟩ [['a']] 100).length ≤ 0) :=
  ⟨by decide, by decide⟩

/-- C3, amended.  For every item list, capacity and configuration the fitter
returns at most `max K 1` items; in particular at most `K` whenever
`K ≥ 1` (only the degenerate ceiling `K = 0` admits one extra item). -/
theorem fit_length_le_ceiling_or_one (cfg : AllocConfig) (items : List Str)
    (maxChars : Int) :
    (fit_content_to_placeholder cfg items maxChars).length ≤
      max cfg.max_bullets 1 := by
  have h := fitGo_length_le cfg maxChars items [] 0
  simpa using h

/-- C4.  For every packing run with `0 ≤ capacityChars`, either the item
lengths of the result sum to at most the capacity, or the result consists
of a prefix whose lengths sum within the capacity followed by exactly one
final item truncated toward the remaining budget (which was above the
50-character viability threshold). -/
theorem fit_sum_length_bound (cfg : AllocConfig) (items : List Str)
    (maxChars : Int) (h : 0 ≤ maxChars) :
    sumLen (fit_content_to_placeholder cfg items maxChars) ≤ maxChars ∨
    ∃ pre item, fit_content_to_placeholder cfg items maxChars =
        pre ++ [truncate_smart item (maxChars - sumLen pre)] ∧
      sumLen pre ≤ maxChars ∧ 50 < maxChars - sumLen pre :=
  fitGo_sum_spec cfg maxChars items [] 0 (by simp [sumLen]) h

/-- Witness for C4 at a concrete packing run. -/
theorem fit_sum_length_bound_witness :
    0 ≤ (10 : Int) ∧
    (sumLen (fit_content_to_placeholder defaultConfig [['a', 'b']] 10) ≤ 10 ∨
      ∃ pre item, fit_content_to_placeholder defaultConfig [['a', 'b']] 10 =
          pre ++ [truncate_smart item (10 - sumLen pre)] ∧
        sumLen pre ≤ 10 ∧ 50 < 10 - sumLen pre) :=
  ⟨by decide, fit_sum_length_bound defaultConfig [['a', 'b']] 10 (by decide)⟩

/-- C9, counterexample.  `int(width*12) * int(height*8)` is negative for the
degenerate geometry `width = -1, height = 1`: the estimator is *not*
non-negative on all degenerate geometry. -/
theorem estimate_capacity_negative_geometry :
    estimate_capacity (-1) 1 = -96 ∧ ¬ (0 ≤ estimate_capacity (-1) 1) := by
  norm_num [estimate_capacity, pyInt]

/-- C9, amended.  For non-negative width and height (all real shapes) the
estimated capacity `int(width*12) * int(height*8)` is non-negative; a
negative width paired with a positive height yields a negative capacity. -/
theorem estimate_capacity_nonneg_of_nonneg (w h : ℚ) (hw : 0 ≤ w)
    (hh : 0 ≤ h) : 0 ≤ estimate_capacity w h := by
  unfold estimate_capacity pyInt
  rw [if_pos (by positivity), if_pos (by positivity)]
  exact mul_nonneg (Int.floor_nonneg.mpr (by positivity))
    (Int.floor_nonneg.mpr (by positivity))

/-- Witness for the amended C9 at a concrete geometry. -/
theorem estimate_capacity_nonneg_witness :
    (0 : ℚ) ≤ 2 ∧ (0 : ℚ) ≤ 1 ∧ 0 ≤ estimate_capacity 2 1 :=
  ⟨by norm_num, by norm_num,
    estimate_capacity_nonneg_of_nonneg 2 1 (by norm_num) (by norm_num)⟩

/-- C10.  For every empty or whitespace-only input text, the summarizer
returns the empty list, for every scorer, bullet limit and minimum sentence
length. -/
theorem summarize_whitespace_returns_nil
    (vectorizer : Option (List Str → Except Unit (List ℚ))) (text : Str)
    (K minLen : Nat) (h : text.all Char.isWhitespace = true) :
    summarize_to_bullets vectorizer text K minLen = [] := by
  unfold summarize_to_bullets
  rw [if_pos h]

/-- Witness for C10 at a concrete whitespace text. -/
theorem summarize_whitespace_returns_nil_witness :
    ("  ".toList.all Char.isWhitespace = true) ∧
    summarize_to_bullets none "  ".toList 5 20 = [] :=
  ⟨by decide, summarize_whitespace_returns_nil none "  ".toList 5 20 (by decide)⟩

set_option maxRecDepth 8000 in
/-- C5, counterexample.  A 300-character title (no sentence boundary) mapped
into a Title placeholder with `capacityChars = 50` is truncated to the
53-character hard slice `text[:50] + "..."`: the fitted title does end with
the ellipsis marker but its length exceeds 50. -/
theorem truncated_title_exceeds_capacity :
    map_content_to_placeholders defaultConfig sd300 titleTemplate50 =
      [(0, .title (List.replicate 50 'y' ++ ['.', '.', '.']))] ∧
    (List.replicate 50 'y' ++ ['.', '.', '.']).length = 53 ∧
    ¬ ((List.replicate 50 'y' ++ ['.', '.', '.']).length ≤ 50) :=
  ⟨by decide, by decide, by decide⟩

/-- C5, amended.  Every 300-character title mapped into a Title placeholder
with `capacityChars = 50` is replaced by `truncate_smart(title, 50)`, whose
length is at most `50 + 3 = 53` (the capacity plus the appended ellipsis
marker) and which ends with the ellipsis marker; the bound 50 itself is not
guaranteed. -/
theorem truncated_title_bounded_with_ellipsis (title : Str)
    (hlen : title.length = 300) (ty : String) (cf : ContentField) (nts : Str) :
    map_content_to_placeholders defaultConfig ⟨ty, title, cf, nts⟩
        titleTemplate50 = [(0, .title (truncate_smart title 50))] ∧
    ((truncate_smart title 50).length : Int) ≤ 53 ∧
    List.IsSuffix ['.', '.', '.'] (truncate_smart title 50) := by
  have hb := truncate_smart_bound title 50 (by norm_num) (by rw [hlen]; norm_num)
  refine ⟨?_, by simpa using hb.1, hb.2⟩
  simp only [map_content_to_placeholders, titleTemplate50, titlePh50,
    List.filterMap_cons, List.filterMap_nil]
  rw [if_pos (by decide), if_pos (by rw [hlen]; norm_num)]

/-- Witness for the amended C5 at a concrete 300-character title. -/
theorem truncated_title_bounded_with_ellipsis_witness :
    (List.replicate 300 'y').length = 300 ∧
    (map_content_to_placeholders defaultConfig
        ⟨"title", List.replicate 300 'y', .items [], []⟩ titleTemplate50 =
        [(0, .title (truncate_smart (List.replicate 300 'y') 50))] ∧
      ((truncate_smart (List.replicate 300 'y') 50).length : Int) ≤ 53 ∧
      List.IsSuffix ['.', '.', '.']
        (truncate_smart (List.replicate 300 'y') 50)) :=
  ⟨by rw [List.length_replicate],
    truncated_title_bounded_with_ellipsis (List.replicate 300 'y')
      (by rw [List.length_replicate]) "title" (.items []) []⟩

/-- C6, counterexample.  On a text whose first and third sentences coincide
(`"Aaaa. Bbbb. Aaaa. Cccc."`) with scores 5, 3, 5, 1 and `K = 3`, the
summarizer returns `["Aaaa.", "Aaaa.", "Bbbb."]` — not a subsequence of the
input sentences (whose order is `Aaaa, Bbbb, Aaaa`): the restore step sorts
by *first*-occurrence index, so duplicate sentences are pulled in front of
sentences that preceded them in the input. -/
theorem summarizer_reorders_duplicate_sentences :
    summarize_to_bullets (some vC6) c6text 3 1 =
      ["Aaaa.".toList, "Aaaa.".toList, "Bbbb.".toList] ∧
    ¬ List.Sublist (summarize_to_bullets (some vC6) c6text 3 1)
      ((simple_sentence_split c6text).map clean_bullet) :=
  ⟨by decide, by decide⟩

/-- C6, amended.  Whenever the scored sentences are pairwise distinct, the
selection returned by `_get_top_sentences` is a subsequence of the original
sentence sequence (original relative order preserved), and its membership
is exactly that of the top-`K` prefix of the stable descending sort by
score (ties broken in favor of the earlier position, by stability).  With
duplicated sentences the restore step can reorder the selection. -/
theorem top_sentences_order_and_membership (scored : List (Str × ℚ)) (n : Nat)
    (hnd : (scored.map Prod.fst).Nodup) :
    List.Sublist (get_top_sentences scored n) (scored.map Prod.fst) ∧
    ∀ s : Str, s ∈ get_top_sentences scored n ↔
      s ∈ ((sortDescByScore scored).take n).map Prod.fst := by
  have hout : get_top_sentences scored n =
      sort_by_index (scored.map Prod.fst)
        (((sortDescByScore scored).take n).map Prod.fst) := rfl
  have hpm : ((sortDescByScore scored).map Prod.fst).Perm (scored.map Prod.fst) :=
    (sortKey_perm _ scored).map Prod.fst
  have hnd_sorted : ((sortDescByScore scored).map Prod.fst).Nodup :=
    hpm.nodup_iff.mpr hnd
  have htops_eq : ((sortDescByScore scored).take n).map Prod.fst =
      ((sortDescByScore scored).map Prod.fst).take n := List.map_take _ _ _
  have hnd_tops : (((sortDescByScore scored).take n).map Prod.fst).Nodup := by
    rw [htops_eq]
    exact hnd_sorted.sublist (List.take_sublist n _)
  have hmem_tops : ∀ x ∈ ((sortDescByScore scored).take n).map Prod.fst,
      x ∈ scored.map Prod.fst := by
    intro x hx
    rw [htops_eq] at hx
    exact hpm.mem_iff.mp ((List.take_sublist n _).subset hx)
  have hperm_out : (get_top_sentences scored n).Perm
      (((sortDescByScore scored).take n).map Prod.fst) := by
    rw [hout]
    exact sortKey_perm _ _
  have hmem_out : ∀ x ∈ get_top_sentences scored n, x ∈ scored.map Prod.fst :=
    fun x hx => hmem_tops x (hperm_out.mem_iff.mp hx)
  refine ⟨?_, fun s => hperm_out.mem_iff⟩
  have hnd_out : (get_top_sentences scored n).Nodup :=
    hperm_out.nodup_iff.mpr hnd_tops
  have hsorted_out : (get_top_sentences scored n).Pairwise
      (fun a b => pyIndex a (scored.map Prod.fst) ≤ pyIndex b (scored.map Prod.fst)) := by
    rw [hout]
    exact sortKey_pairwise_le _ _
  refine sublist_of_pyIndex_lt _ _ hmem_out ?_
  rw [List.pairwise_iff_get] at hsorted_out ⊢
  intro i j hij
  rcases lt_or_eq_of_le (hsorted_out i j hij) with hlt | heq
  · exact hlt
  · exfalso
    have he : (get_top_sentences scored n).get i =
        (get_top_sentences scored n).get j :=
      pyIndex_inj _ _ _ (hmem_out _ (List.get_mem _ _ _))
        (hmem_out _ (List.get_mem _ _ _)) heq
    have hij' : i = j := List.nodup_iff_injective_get.mp hnd_out he
    rw [hij'] at hij
    exact lt_irrefl _ hij

/-- Witness for the amended C6 at concrete distinct sentences. -/
theorem top_sentences_order_and_membership_witness :
    ([("aa".toList, (1 : ℚ)), ("bb".toList, 2)].map Prod.fst).Nodup ∧
    (List.Sublist
        (get_top_sentences [("aa".toList, (1 : ℚ)), ("bb".toList, 2)] 1)
        ([("aa".toList, (1 : ℚ)), ("bb".toList, 2)].map Prod.fst) ∧
      ∀ s : Str,
        s ∈ get_top_sentences [("aa".toList, (1 : ℚ)), ("bb".toList, 2)] 1 ↔
        s ∈ ((sortDescByScore
          [("aa".toList, (1 : ℚ)), ("bb".toList, 2)]).take 1).map Prod.fst) :=
  ⟨by decide, top_sentences_order_and_membership
    [("aa".toList, (1 : ℚ)), ("bb".toList, 2)] 1 (by decide)⟩

/-- C7, counterexample.  When the scorer fails, `_score_sentences_tfidf`
falls back to equal scores and the top-selection path still runs; on a text
with a duplicated sentence the result is *not* the first `K` sentences in
original order (here `["Aaaa.", "Aaaa.", "Bbbb."]` instead of
`["Aaaa.", "Bbbb.", "Aaaa."]`), though no exception escapes. -/
theorem scorer_failure_not_first_k_with_duplicates :
    vFail ((simple_sentence_split c6text).filter fun s => 1 ≤ s.length) =
      .error () ∧
    summarize_to_bullets (some vFail) c6text 3 1 ≠
      (((simple_sentence_split c6text).filter fun s => 1 ≤ s.length).take 3).map
        clean_bullet :=
  ⟨rfl, by decide⟩

/-- C7, amended.  The summarizer is a total function (it never raises), and
whenever the scorer fails on the filtered sentences *and* those sentences
are pairwise distinct, it degrades to the first `K` sentences, cleaned, in
original order.  (With duplicated sentences the degraded result is a
permutation of those bullets but may be reordered.) -/
theorem scorer_failure_degrades_to_first_k
    (v : List Str → Except Unit (List ℚ)) (text : Str) (K minLen : Nat)
    (hfail : v ((simple_sentence_split text).filter fun s => minLen ≤ s.length) =
      .error ())
    (hnd : ((simple_sentence_split text).filter fun s => minLen ≤ s.length).Nodup) :
    summarize_to_bullets (some v) text K minLen =
      (((simple_sentence_split text).filter fun s => minLen ≤ s.length).take K).map
        clean_bullet := by
  simp only [summarize_to_bullets]
  by_cases hws : text.all Char.isWhitespace
  · rw [if_pos hws]
    have hsplit : simple_sentence_split text = [] :=
      simple_sentence_split_ws text fun c hc => List.all_eq_true.mp hws c hc
    rw [hsplit]
    simp
  · rw [if_neg hws]
    by_cases hK : ((simple_sentence_split text).filter fun s =>
        minLen ≤ s.length).length ≤ K
    · rw [if_pos hK, List.take_of_length_le hK]
    · rw [if_neg hK]
      show (get_top_sentences (score_sentences_tfidf v _) K).map clean_bullet = _
      rw [score_sentences_tfidf, hfail, get_top_sentences_uniform _ K hnd]

/-- Witness for the amended C7 at a concrete text with distinct sentences. -/
theorem scorer_failure_degrades_to_first_k_witness :
    vFail ((simple_sentence_split "Aaaa. Bbbb. Cccc. Dddd.".toList).filter
        fun s => 1 ≤ s.length) = .error () ∧
    ((simple_sentence_split "Aaaa. Bbbb. Cccc. Dddd.".toList).filter
        fun s => 1 ≤ s.length).Nodup ∧
    summarize_to_bullets (some vFail) "Aaaa. Bbbb. Cccc. Dddd.".toList 3 1 =
      (((simple_sentence_split "Aaaa. Bbbb. Cccc. Dddd.".toList).filter
          fun s => 1 ≤ s.length).take 3).map clean_bullet :=
  ⟨rfl, by decide, scorer_failure_degrades_to_first_k vFail
    "Aaaa. Bbbb. Cccc. Dddd.".toList 3 1 rfl (by decide)⟩

/-- C8.  Every request whose content is a list of ten items, under the
default configuration (`maxBulletsPerSlide = 6`, threshold `9`), triggers
the split predicate and is partitioned in original order into chunks of
sizes `[6, 4]` (each item individually capped at 200 characters); the first
chunk keeps the original title and the second chunk's title is the original
title with `" (cont.)"` appended. -/
theorem ten_items_split_into_six_and_four (ty : String) (t nts : Str)
    (a₁ a₂ a₃ a₄ a₅ a₆ a₇ a₈ a₉ a₁₀ : Str) :
    needs_split defaultConfig
      ⟨ty, t, .items [a₁, a₂, a₃, a₄, a₅, a₆, a₇, a₈, a₉, a₁₀], nts⟩ = true ∧
    split_slide_requests defaultConfig
        ⟨ty, t, .items [a₁, a₂, a₃, a₄, a₅, a₆, a₇, a₈, a₉, a₁₀], nts⟩ =
      [⟨ty, t, .items ([a₁, a₂, a₃, a₄, a₅, a₆].map (cap_item 200)), nts⟩,
       ⟨ty, t ++ " (cont.)".toList,
        .items ([a₇, a₈, a₉, a₁₀].map (cap_item 200)), nts⟩] := by
  constructor
  · simp [needs_split, defaultConfig]
  · simp [split_slide_requests, split_long_content, split_long_go, pyEnum,
      pyEnum0, defaultConfig]
